import Mathlib

/-!
Shallow embedding of the metrics-tracking and logging layer of the
protein-transformer training loop (log.py and scripts/plot.py), with
theorems checking the specified properties.

Modelling conventions: real-valued training losses are rationals;
np.inf is modelled by `none` in an `Option ℚ`; a torch scalar tensor
carries an explicit NaN flag where NaN-ness matters; wall-clock time
is an explicit rational argument; raising an exception / calling
sys.exit is modelled by an `Except` error or an explicit outcome
constructor.  Values that Python's truthiness test would treat as
absent (`None` or `0`) are modelled by `Option ℚ` together with
`pyTruthy` below.
-/

/-- Names of the data splits used as keys of the metrics dictionary. -/
inductive Mode where
  | train
  | valid
  | test
deriving DecidableEq

/-- Per-split slot of the metrics dictionary of log.py, as populated by
init_metrics and reset_metrics_for_epoch. -/
structure SplitMetrics where
  batch_drmsd : ℚ
  batch_ln_drmsd : ℚ
  batch_mse : ℚ
  batch_combined : ℚ
  batch_rmsd : Option ℚ
  epoch_drmsd : ℚ
  epoch_ln_drmsd : ℚ
  epoch_mse : ℚ
  epoch_combined : ℚ
  epoch_rmsd : Option ℚ
  epoch_history_drmsd : List ℚ
  epoch_history_combined : List ℚ
  batch_history : List ℚ
  speed : ℚ
  batch_time : ℚ
  speed_history : List ℚ
deriving DecidableEq

/-- Command-line flags of the training script that log.py reads. -/
structure Args where
  train_only : Bool
  combined_loss : Bool
  early_stopping : ℕ
  lr_scheduling : Bool
  cluster : Bool
  log_structure_step : ℕ
  log_wandb_step : ℕ
deriving DecidableEq

/-- The whole metrics dictionary of log.py.  best_valid_loss_so_far is
`none` while it is np.inf; loss_to_compare and losses_to_compare are
`none` while the dictionary key is absent. -/
structure Metrics where
  train : SplitMetrics
  valid : SplitMetrics
  test : SplitMetrics
  history_lr : List ℚ
  epoch_last_improved : ℤ
  best_valid_loss_so_far : Option ℚ
  loss_to_compare : Option ℚ
  losses_to_compare : Option (List ℚ)
deriving DecidableEq

/-- Reads the per-split slot of the metrics dictionary. -/
def Metrics.get (m : Metrics) : Mode → SplitMetrics
  | Mode.train => m.train
  | Mode.valid => m.valid
  | Mode.test => m.test

/-- Writes the per-split slot of the metrics dictionary. -/
def Metrics.set (m : Metrics) (mo : Mode) (s : SplitMetrics) : Metrics :=
  match mo with
  | Mode.train => { m with train := s }
  | Mode.valid => { m with valid := s }
  | Mode.test => { m with test := s }

/-- Python truthiness of an optional numeric value: None and 0 are falsy,
every other number is truthy. -/
def pyTruthy : Option ℚ → Bool
  | none => false
  | some r => decide (r ≠ 0)

/-- Comparison of a loss against a best loss that may be np.inf
(modelled by `none`): everything is smaller than infinity. -/
def ltBest (l : ℚ) : Option ℚ → Bool
  | none => true
  | some b => decide (l < b)

/-- Exception raised by log.py when the early-stopping conditions are
met; it carries no payload. -/
structure EarlyStoppingCondition where
deriving DecidableEq

/-- Embeds update_loss_trackers of log.py: chooses the split and the
loss to compare from the flags, updates the best-loss tracker on
strict improvement, and otherwise raises EarlyStoppingCondition
(modelled by `Except.error`) once the patience is exceeded. -/
def update_loss_trackers (args : Args) (epoch_i : ℤ) (metrics : Metrics) :
    Except EarlyStoppingCondition Metrics :=
  let mode := if args.train_only then Mode.train else Mode.valid
  let loss_to_compare :=
    if args.combined_loss then (metrics.get mode).epoch_combined
    else (metrics.get mode).epoch_drmsd
  let losses_to_compare :=
    if args.combined_loss then (metrics.get mode).epoch_history_combined
    else (metrics.get mode).epoch_history_drmsd
  if ltBest loss_to_compare metrics.best_valid_loss_so_far then
    Except.ok { metrics with
      best_valid_loss_so_far := some loss_to_compare
      epoch_last_improved := epoch_i
      loss_to_compare := some loss_to_compare
      losses_to_compare := some losses_to_compare }
  else if args.early_stopping ≠ 0 ∧
      epoch_i - metrics.epoch_last_improved > (args.early_stopping : ℤ) then
    Except.error ⟨⟩
  else
    Except.ok { metrics with
      loss_to_compare := some loss_to_compare
      losses_to_compare := some losses_to_compare }

/-- Default content of a per-split slot before the first epoch: the two
epoch-history lists that init_metrics creates are empty, every other
key is absent (modelled by zero / `none`). -/
def initSplitMetrics : SplitMetrics :=
  { batch_drmsd := 0
    batch_ln_drmsd := 0
    batch_mse := 0
    batch_combined := 0
    batch_rmsd := none
    epoch_drmsd := 0
    epoch_ln_drmsd := 0
    epoch_mse := 0
    epoch_combined := 0
    epoch_rmsd := none
    epoch_history_drmsd := []
    epoch_history_combined := []
    batch_history := []
    speed := 0
    batch_time := 0
    speed_history := [] }

/-- Embeds init_metrics of log.py. -/
def init_metrics (args : Args) : Metrics :=
  { train := initSplitMetrics
    valid := initSplitMetrics
    test := initSplitMetrics
    history_lr := if args.lr_scheduling then [] else [0]
    epoch_last_improved := -1
    best_valid_loss_so_far := none
    loss_to_compare := none
    losses_to_compare := none }

/-- Harness used to iterate the early-stopping evaluator over a list of
epoch-mean losses: stores the loss in the compared field of the
compared split (as finalizing the epoch would) before running
update_loss_trackers. -/
def setCompareLoss (args : Args) (l : ℚ) (m : Metrics) : Metrics :=
  let mode := if args.train_only then Mode.train else Mode.valid
  let s := m.get mode
  if args.combined_loss then m.set mode { s with epoch_combined := l }
  else m.set mode { s with epoch_drmsd := l }

/-- Runs the early-stopping evaluator on successive epoch-mean losses,
starting at epoch index `e`, propagating EarlyStoppingCondition. -/
def runES (args : Args) : ℤ → List ℚ → Metrics → Except EarlyStoppingCondition Metrics
  | _, [], m => Except.ok m
  | e, l :: ls, m =>
    match update_loss_trackers args e (setCompareLoss args l m) with
    | Except.error u => Except.error u
    | Except.ok m' => runES args (e + 1) ls m'

/-- Epoch index of the last improvement recorded in an evaluator result,
when the run did not stop. -/
def esLastImproved : Except EarlyStoppingCondition Metrics → Option ℤ
  | Except.ok m => some m.epoch_last_improved
  | Except.error _ => none

/-- Did the evaluator run complete without raising? -/
def esOk : Except EarlyStoppingCondition Metrics → Bool
  | Except.ok _ => true
  | Except.error _ => false

/-- Flags of the early-stopping scenario: combined-loss comparison mode
on the validation split with patience 2. -/
def scenarioArgs : Args :=
  { train_only := false
    combined_loss := true
    early_stopping := 2
    lr_scheduling := false
    cluster := true
    log_structure_step := 1
    log_wandb_step := 1 }

/-- Rounds to the nearest integer, ties to even, the rounding used by
Python's builtin round. -/
def roundHalfEven (x : ℚ) : ℤ :=
  let f := ⌊x⌋
  let r := x - f
  if r < 1 / 2 then f
  else if 1 / 2 < r then f + 1
  else if 2 ∣ f then f else f + 1

/-- Embeds the two-argument Python round: rounding to `ndigits` decimal
places. -/
def pyRound (x : ℚ) (ndigits : ℕ) : ℚ :=
  (roundHalfEven (x * 10 ^ ndigits) : ℚ) / 10 ^ ndigits

/-- Embeds update_metrics of log.py.  The tensor arguments appear as
their item() values; `src_seq` is the batch of input rows used only
to count non-padding rows; `now` is the current wall-clock time.
Note that `rmsd` and `tracking_loss` are guarded by Python
truthiness, so a supplied 0 behaves like None. -/
def update_metrics (metrics : Metrics) (mode : Mode)
    (drmsd ln_drmsd mse combined : ℚ) (src_seq : List (List ℚ))
    (rmsd : Option ℚ) (tracking_loss : Option ℚ) (batch_level : Bool)
    (now : ℚ) : Metrics :=
  let m := metrics.get mode
  let m := if batch_level then
      { m with
        batch_drmsd := drmsd
        batch_ln_drmsd := ln_drmsd
        batch_mse := mse
        batch_combined := combined
        batch_rmsd := if pyTruthy rmsd then rmsd else m.batch_rmsd }
    else m
  let m := { m with
    epoch_drmsd := m.epoch_drmsd + drmsd
    epoch_ln_drmsd := m.epoch_ln_drmsd + ln_drmsd
    epoch_mse := m.epoch_mse + mse
    epoch_combined := m.epoch_combined + combined
    epoch_rmsd := if pyTruthy rmsd then m.epoch_rmsd.map (· + rmsd.getD 0)
                  else m.epoch_rmsd }
  let num_res : ℚ :=
    ((src_seq.filter (fun row => row.any (fun x => x != 0))).length : ℚ)
  let speed := pyRound (num_res / (now - m.batch_time)) 2
  let m := { m with
    speed := speed
    batch_time := now
    speed_history := m.speed_history ++ [speed] }
  let m := if pyTruthy tracking_loss then
      { m with batch_history := m.batch_history ++ [tracking_loss.getD 0] }
    else m
  metrics.set mode m

/-- Embeds reset_metrics_for_epoch of log.py. -/
def reset_metrics_for_epoch (metrics : Metrics) (mode : Mode) (now : ℚ) :
    Metrics :=
  let m := metrics.get mode
  let m := { m with
    epoch_drmsd := 0
    batch_drmsd := 0
    epoch_ln_drmsd := 0
    batch_ln_drmsd := 0
    epoch_mse := 0
    batch_mse := 0
    epoch_combined := 0
    batch_combined := 0 }
  let m := if mode = Mode.train then
      { m with epoch_rmsd := none, batch_rmsd := none }
    else
      { m with epoch_rmsd := some 0, batch_rmsd := some 0 }
  let m := { m with
    batch_history := []
    batch_time := now
    speed_history := [] }
  metrics.set mode m

/-- Embeds update_metrics_end_of_epoch of log.py: divides every epoch
running sum by the batch count and appends the resulting combined and
drmsd means to the epoch histories. -/
def update_metrics_end_of_epoch (metrics : Metrics) (mode : Mode)
    (n_batches : ℚ) : Metrics :=
  let m := metrics.get mode
  let m := { m with
    epoch_drmsd := m.epoch_drmsd / n_batches
    epoch_ln_drmsd := m.epoch_ln_drmsd / n_batches
    epoch_mse := m.epoch_mse / n_batches
    epoch_combined := m.epoch_combined / n_batches }
  let m := if mode = Mode.train then { m with epoch_rmsd := none }
    else { m with epoch_rmsd := m.epoch_rmsd.map (· / n_batches) }
  let m := { m with
    epoch_history_combined := m.epoch_history_combined ++ [m.epoch_combined]
    epoch_history_drmsd := m.epoch_history_drmsd ++ [m.epoch_drmsd] }
  metrics.set mode m

/-- One call to update_metrics, bundled so that a whole epoch of calls
is a list. -/
structure UpdateCall where
  drmsd : ℚ
  ln_drmsd : ℚ
  mse : ℚ
  combined : ℚ
  src_seq : List (List ℚ)
  rmsd : Option ℚ
  tracking_loss : Option ℚ
  batch_level : Bool
  now : ℚ
deriving DecidableEq

/-- Applies a sequence of update_metrics calls on one split. -/
def applyUpdates (mode : Mode) (calls : List UpdateCall) (m : Metrics) :
    Metrics :=
  calls.foldl (fun acc c =>
    update_metrics acc mode c.drmsd c.ln_drmsd c.mse c.combined c.src_seq
      c.rmsd c.tracking_loss c.batch_level c.now) m

/-- The four update calls of the epoch-mean scenario: drmsd values 1, 2,
3, 4, every other metric zero, at wall-clock times 1 to 4. -/
def scenarioCalls : List UpdateCall :=
  [⟨1, 0, 0, 0, [], none, none, true, 1⟩,
   ⟨2, 0, 0, 0, [], none, none, true, 2⟩,
   ⟨3, 0, 0, 0, [], none, none, true, 3⟩,
   ⟨4, 0, 0, 0, [], none, none, true, 4⟩]

/-- Order on optional losses in which `none` is positive infinity. -/
def optLE : Option ℚ → Option ℚ → Prop
  | _, none => True
  | none, some _ => False
  | some a, some b => a ≤ b

/-- The loss value the early-stopping evaluator compares, as selected by
the flags at the top of update_loss_trackers. -/
def compareLoss (args : Args) (metrics : Metrics) : ℚ :=
  let mode := if args.train_only then Mode.train else Mode.valid
  if args.combined_loss then (metrics.get mode).epoch_combined
  else (metrics.get mode).epoch_drmsd

/-- The loss-history list the evaluator stores alongside the compared
loss. -/
def compareHistory (args : Args) (metrics : Metrics) : List ℚ :=
  let mode := if args.train_only then Mode.train else Mode.valid
  if args.combined_loss then (metrics.get mode).epoch_history_combined
  else (metrics.get mode).epoch_history_drmsd

/-- Concrete state reached by storing loss 5 for an improving
early-stopping evaluation at epoch 1 from the initial state. -/
def esWitnessInput : Metrics :=
  setCompareLoss scenarioArgs 5 (init_metrics scenarioArgs)

/-- Result of that improving evaluation. -/
def esWitnessOutput : Metrics :=
  { esWitnessInput with
    best_valid_loss_so_far := some 5
    epoch_last_improved := 1
    loss_to_compare := some 5
    losses_to_compare := some [] }

/-- Metrics state with a non-empty batch loss history, reached from the
initial state by a reset and one update carrying tracking loss 1. -/
def c6State : Metrics :=
  update_metrics (reset_metrics_for_epoch (init_metrics scenarioArgs)
    Mode.valid 0) Mode.valid 1 0 0 0 [] none (some 1) true 1

/-- State with best loss 4 and last improvement at epoch 2, used to
instantiate the early-stopping theorem concretely. -/
def c1WitnessState : Metrics :=
  { init_metrics scenarioArgs with
    best_valid_loss_so_far := some 4
    epoch_last_improved := 2 }

/-- A cell of a tabular log row: a plain number, an optional number
(None for the missing train rmsd), np.sqrt applied to a number (kept
symbolic, since square roots leave the rationals), or a string. -/
inductive LogValue where
  | num : ℚ → LogValue
  | onum : Option ℚ → LogValue
  | sqrtNum : ℚ → LogValue
  | str : String → LogValue
deriving DecidableEq

/-- The string key of a split. -/
def modeName : Mode → String
  | Mode.train => "train"
  | Mode.valid => "valid"
  | Mode.test => "test"

/-- Embeds log_batch of log.py: the row handed to the CSV writer for one
batch or one end-of-epoch summary.  Here `t` is the optional
timestamp argument (a falsy value is replaced by the current time
`now`), and the result is `none` when the learning-rate history is
empty, where the Python code would raise an IndexError on the last
element of history-lr. -/
def log_batch (metrics : Metrics) (start_time : ℚ) (mode : Mode)
    (end_of_epoch : Bool) (t : Option ℚ) (now : ℚ) :
    Option (List LogValue) :=
  let tv := match t with
    | none => now
    | some x => if x = 0 then now else x
  let m := metrics.get mode
  match metrics.history_lr.getLast? with
  | none => none
  | some lr =>
    if end_of_epoch then
      some [LogValue.num m.epoch_drmsd, LogValue.num m.epoch_ln_drmsd,
        LogValue.sqrtNum m.epoch_mse, LogValue.onum m.epoch_rmsd,
        LogValue.num m.epoch_combined, LogValue.num lr,
        LogValue.str (modeName mode), LogValue.str "epoch",
        LogValue.num (pyRound (tv - start_time) 4), LogValue.num m.speed]
    else
      some [LogValue.num m.batch_drmsd, LogValue.num m.batch_ln_drmsd,
        LogValue.sqrtNum m.batch_mse, LogValue.onum m.batch_rmsd,
        LogValue.num m.batch_combined, LogValue.num lr,
        LogValue.str (modeName mode), LogValue.str "epoch",
        LogValue.num (pyRound (tv - start_time) 4), LogValue.num m.speed]

/-- Embeds prepare_log_header of log.py. -/
def prepare_log_header (args : Args) : String :=
  if args.combined_loss then
    "drmsd,ln_drmsd,rmse,rmsd,combined,lr,mode,granularity,time,speed\n"
  else
    "drmsd,ln_drmsd,rmse,rmsd,lr,mode,granularity,time,speed\n"

/-- A torch scalar tensor as the logging code sees it: its item() value
together with whether it is NaN. -/
structure TorchScalar where
  val : ℚ
  isNan : Bool
deriving DecidableEq

/-- The optimizer, of which the logging code only reads cur_lr. -/
structure Optimizer where
  cur_lr : ℚ
deriving DecidableEq

/-- Observable outcome of do_train_batch_logging: process exit with a
status (sys.exit), an unhandled IndexError out of log_batch when the
learning-rate history is empty, or normal completion with the
updated metrics and the row that was written. -/
inductive TrainLogOutcome where
  | exited : ℕ → TrainLogOutcome
  | crashed : TrainLogOutcome
  | finished : Metrics → List LogValue → TrainLogOutcome
deriving DecidableEq

/-- Embeds do_train_batch_logging of log.py, keeping its state effects
and control flow in order: the update_metrics call, the
learning-rate append under lr scheduling, the log_batch row, and the
NaN check that calls sys.exit(1).  The wandb forwarding and console
printing touch no state and are omitted. -/
def do_train_batch_logging (metrics : Metrics)
    (d_loss ln_d_loss m_loss c_loss : ℚ) (src_seq : List (List ℚ))
    (loss : TorchScalar) (optimizer : Optimizer) (args : Args)
    (start_time : ℚ) (now : ℚ) : TrainLogOutcome :=
  let metrics := update_metrics metrics Mode.train d_loss ln_d_loss m_loss
    c_loss src_seq none (some loss.val) true now
  let metrics := if args.lr_scheduling then
      { metrics with history_lr := metrics.history_lr ++ [optimizer.cur_lr] }
    else metrics
  match log_batch metrics start_time Mode.train false none now with
  | none => TrainLogOutcome.crashed
  | some row =>
    if loss.isNan then TrainLogOutcome.exited 1
    else TrainLogOutcome.finished metrics row

/-- Helper for pyReplace: one scan of Python str.replace, left to right,
replacing non-overlapping occurrences of `pat` by `rep`.  The fuel
argument makes the recursion structural; pyReplace supplies fuel
equal to the list length, which never runs out. -/
def pyReplaceAux (pat rep : List Char) : ℕ → List Char → List Char
  | _, [] => []
  | 0, l => l
  | fuel + 1, c :: rest =>
    if pat ≠ [] ∧ pat.isPrefixOf (c :: rest) then
      rep ++ pyReplaceAux pat rep fuel (rest.drop (pat.length - 1))
    else
      c :: pyReplaceAux pat rep fuel rest

/-- Embeds Python str.replace on character lists (for the non-empty
patterns used by plot.py). -/
def pyReplace (pat rep l : List Char) : List Char :=
  pyReplaceAux pat rep l.length l

/-- Embeds Python str.find for a single character: the index of the
first occurrence, or -1. -/
def pyFind (needle : Char) (l : List Char) : ℤ :=
  match l.findIdx? (fun c => c == needle) with
  | some i => (i : ℤ)
  | none => -1

/-- The replace_chars string of title_to_fn in plot.py. -/
def replace_chars : List Char := " ,=[]().$".toList

/-- Embeds title_to_fn of scripts/plot.py: strips the time notation,
drops everything through the first newline, replaces every character
of replace_chars by an underscore and lowercases the result. -/
def title_to_fn (title : List Char) : List Char :=
  let title := pyReplace " = [".toList "_".toList title
  let title := pyReplace ", )".toList "_".toList title
  let title := pyReplace ", ".toList "_".toList title
  let title := title.drop (pyFind '\n' title + 1).toNat
  let title := replace_chars.foldl (fun t rc => pyReplace [rc] ['_'] t) title
  title.map Char.toLower

theorem Metrics.get_set_self (m : Metrics) (mo : Mode) (s : SplitMetrics) :
    (m.set mo s).get mo = s := by
  cases mo <;> rfl

theorem Metrics.set_history_lr (m : Metrics) (mo : Mode) (s : SplitMetrics) :
    (m.set mo s).history_lr = m.history_lr := by
  cases mo <;> rfl

theorem Metrics.set_best (m : Metrics) (mo : Mode) (s : SplitMetrics) :
    (m.set mo s).best_valid_loss_so_far = m.best_valid_loss_so_far := by
  cases mo <;> rfl

theorem Metrics.set_last_improved (m : Metrics) (mo : Mode) (s : SplitMetrics) :
    (m.set mo s).epoch_last_improved = m.epoch_last_improved := by
  cases mo <;> rfl

theorem update_metrics_epoch_drmsd (m : Metrics) (mo : Mode)
    (d l ms c : ℚ) (s : List (List ℚ)) (r tl : Option ℚ) (bl : Bool)
    (now : ℚ) :
    ((update_metrics m mo d l ms c s r tl bl now).get mo).epoch_drmsd
      = (m.get mo).epoch_drmsd + d := by
  cases bl <;>
    simp [update_metrics, Metrics.get_set_self,
      apply_ite SplitMetrics.epoch_drmsd]

theorem update_metrics_epoch_ln_drmsd (m : Metrics) (mo : Mode)
    (d l ms c : ℚ) (s : List (List ℚ)) (r tl : Option ℚ) (bl : Bool)
    (now : ℚ) :
    ((update_metrics m mo d l ms c s r tl bl now).get mo).epoch_ln_drmsd
      = (m.get mo).epoch_ln_drmsd + l := by
  cases bl <;>
    simp [update_metrics, Metrics.get_set_self,
      apply_ite SplitMetrics.epoch_ln_drmsd]

theorem update_metrics_epoch_mse (m : Metrics) (mo : Mode)
    (d l ms c : ℚ) (s : List (List ℚ)) (r tl : Option ℚ) (bl : Bool)
    (now : ℚ) :
    ((update_metrics m mo d l ms c s r tl bl now).get mo).epoch_mse
      = (m.get mo).epoch_mse + ms := by
  cases bl <;>
    simp [update_metrics, Metrics.get_set_self,
      apply_ite SplitMetrics.epoch_mse]

theorem update_metrics_epoch_combined (m : Metrics) (mo : Mode)
    (d l ms c : ℚ) (s : List (List ℚ)) (r tl : Option ℚ) (bl : Bool)
    (now : ℚ) :
    ((update_metrics m mo d l ms c s r tl bl now).get mo).epoch_combined
      = (m.get mo).epoch_combined + c := by
  cases bl <;>
    simp [update_metrics, Metrics.get_set_self,
      apply_ite SplitMetrics.epoch_combined]

theorem update_metrics_epoch_rmsd (m : Metrics) (mo : Mode)
    (d l ms c : ℚ) (s : List (List ℚ)) (r tl : Option ℚ) (bl : Bool)
    (now : ℚ) :
    ((update_metrics m mo d l ms c s r tl bl now).get mo).epoch_rmsd
      = ((m.get mo).epoch_rmsd).map (· + r.getD 0) := by
  have hmap : ∀ o : Option ℚ, o.map (· + (0 : ℚ)) = o := by
    intro o; cases o <;> simp
  cases bl <;>
    cases hr : r with
    | none =>
        simp [update_metrics, Metrics.get_set_self, pyTruthy,
          apply_ite SplitMetrics.epoch_rmsd, hmap]
    | some v =>
        by_cases hv : v = 0 <;>
          simp [update_metrics, Metrics.get_set_self, pyTruthy, hv,
            apply_ite SplitMetrics.epoch_rmsd, hmap]

theorem update_metrics_epoch_rmsd_not_truthy (m : Metrics) (mo : Mode)
    (d l ms c : ℚ) (s : List (List ℚ)) (r tl : Option ℚ) (bl : Bool)
    (now : ℚ) (hr : pyTruthy r = false) :
    ((update_metrics m mo d l ms c s r tl bl now).get mo).epoch_rmsd
      = (m.get mo).epoch_rmsd := by
  cases bl <;>
    simp [update_metrics, Metrics.get_set_self, hr,
      apply_ite SplitMetrics.epoch_rmsd]

theorem update_metrics_batch_rmsd_not_truthy (m : Metrics) (mo : Mode)
    (d l ms c : ℚ) (s : List (List ℚ)) (r tl : Option ℚ) (bl : Bool)
    (now : ℚ) (hr : pyTruthy r = false) :
    ((update_metrics m mo d l ms c s r tl bl now).get mo).batch_rmsd
      = (m.get mo).batch_rmsd := by
  cases bl <;>
    simp [update_metrics, Metrics.get_set_self, hr,
      apply_ite SplitMetrics.batch_rmsd]

theorem update_metrics_batch_history (m : Metrics) (mo : Mode)
    (d l ms c : ℚ) (s : List (List ℚ)) (r tl : Option ℚ) (bl : Bool)
    (now : ℚ) :
    ((update_metrics m mo d l ms c s r tl bl now).get mo).batch_history
      = if pyTruthy tl then (m.get mo).batch_history ++ [tl.getD 0]
        else (m.get mo).batch_history := by
  cases bl <;>
    simp [update_metrics, Metrics.get_set_self,
      apply_ite SplitMetrics.batch_history]

theorem update_metrics_epoch_history_drmsd (m : Metrics) (mo : Mode)
    (d l ms c : ℚ) (s : List (List ℚ)) (r tl : Option ℚ) (bl : Bool)
    (now : ℚ) :
    ((update_metrics m mo d l ms c s r tl bl now).get mo).epoch_history_drmsd
      = (m.get mo).epoch_history_drmsd := by
  cases bl <;>
    simp [update_metrics, Metrics.get_set_self,
      apply_ite SplitMetrics.epoch_history_drmsd]

theorem update_metrics_epoch_history_combined (m : Metrics) (mo : Mode)
    (d l ms c : ℚ) (s : List (List ℚ)) (r tl : Option ℚ) (bl : Bool)
    (now : ℚ) :
    ((update_metrics m mo d l ms c s r tl bl now).get mo).epoch_history_combined
      = (m.get mo).epoch_history_combined := by
  cases bl <;>
    simp [update_metrics, Metrics.get_set_self,
      apply_ite SplitMetrics.epoch_history_combined]

theorem update_metrics_speed_history_grows (m : Metrics) (mo : Mode)
    (d l ms c : ℚ) (s : List (List ℚ)) (r tl : Option ℚ) (bl : Bool)
    (now : ℚ) :
    ∃ x, ((update_metrics m mo d l ms c s r tl bl now).get mo).speed_history
      = (m.get mo).speed_history ++ [x] := by
  refine ⟨pyRound (((s.filter (fun row => row.any (fun x => x != 0))).length : ℚ)
    / (now - (m.get mo).batch_time)) 2, ?_⟩
  cases bl <;>
    simp [update_metrics, Metrics.get_set_self,
      apply_ite SplitMetrics.speed_history,
      apply_ite SplitMetrics.batch_time]

theorem update_metrics_history_lr (m : Metrics) (mo : Mode)
    (d l ms c : ℚ) (s : List (List ℚ)) (r tl : Option ℚ) (bl : Bool)
    (now : ℚ) :
    (update_metrics m mo d l ms c s r tl bl now).history_lr
      = m.history_lr := by
  simp [update_metrics, Metrics.set_history_lr]

theorem reset_metrics_get (m : Metrics) (mo : Mode) (now : ℚ) :
    ((reset_metrics_for_epoch m mo now).get mo).epoch_drmsd = 0 ∧
    ((reset_metrics_for_epoch m mo now).get mo).epoch_ln_drmsd = 0 ∧
    ((reset_metrics_for_epoch m mo now).get mo).epoch_mse = 0 ∧
    ((reset_metrics_for_epoch m mo now).get mo).epoch_combined = 0 ∧
    ((reset_metrics_for_epoch m mo now).get mo).epoch_rmsd
      = (if mo = Mode.train then none else some 0) ∧
    ((reset_metrics_for_epoch m mo now).get mo).batch_history = [] ∧
    ((reset_metrics_for_epoch m mo now).get mo).speed_history = [] ∧
    ((reset_metrics_for_epoch m mo now).get mo).epoch_history_drmsd
      = (m.get mo).epoch_history_drmsd ∧
    ((reset_metrics_for_epoch m mo now).get mo).epoch_history_combined
      = (m.get mo).epoch_history_combined ∧
    (reset_metrics_for_epoch m mo now).history_lr = m.history_lr := by
  refine ⟨?_, ?_, ?_, ?_, ?_, ?_, ?_, ?_, ?_, ?_⟩ <;>
    by_cases hmo : mo = Mode.train <;>
      simp [reset_metrics_for_epoch, Metrics.get_set_self,
        Metrics.set_history_lr, hmo,
        apply_ite SplitMetrics.epoch_drmsd,
        apply_ite SplitMetrics.epoch_ln_drmsd,
        apply_ite SplitMetrics.epoch_mse,
        apply_ite SplitMetrics.epoch_combined,
        apply_ite SplitMetrics.epoch_rmsd,
        apply_ite SplitMetrics.batch_history,
        apply_ite SplitMetrics.speed_history,
        apply_ite SplitMetrics.epoch_history_drmsd,
        apply_ite SplitMetrics.epoch_history_combined]

theorem finalize_get (m : Metrics) (mo : Mode) (n : ℚ) :
    ((update_metrics_end_of_epoch m mo n).get mo).epoch_drmsd
      = (m.get mo).epoch_drmsd / n ∧
    ((update_metrics_end_of_epoch m mo n).get mo).epoch_ln_drmsd
      = (m.get mo).epoch_ln_drmsd / n ∧
    ((update_metrics_end_of_epoch m mo n).get mo).epoch_mse
      = (m.get mo).epoch_mse / n ∧
    ((update_metrics_end_of_epoch m mo n).get mo).epoch_combined
      = (m.get mo).epoch_combined / n ∧
    ((update_metrics_end_of_epoch m mo n).get mo).epoch_rmsd
      = (if mo = Mode.train then none
         else ((m.get mo).epoch_rmsd).map (· / n)) ∧
    ((update_metrics_end_of_epoch m mo n).get mo).epoch_history_drmsd
      = (m.get mo).epoch_history_drmsd ++ [(m.get mo).epoch_drmsd / n] ∧
    ((update_metrics_end_of_epoch m mo n).get mo).epoch_history_combined
      = (m.get mo).epoch_history_combined ++ [(m.get mo).epoch_combined / n] ∧
    ((update_metrics_end_of_epoch m mo n).get mo).batch_history
      = (m.get mo).batch_history ∧
    ((update_metrics_end_of_epoch m mo n).get mo).speed_history
      = (m.get mo).speed_history ∧
    (update_metrics_end_of_epoch m mo n).history_lr = m.history_lr := by
  refine ⟨?_, ?_, ?_, ?_, ?_, ?_, ?_, ?_, ?_, ?_⟩ <;>
    by_cases hmo : mo = Mode.train <;>
      simp [update_metrics_end_of_epoch, Metrics.get_set_self,
        Metrics.set_history_lr, hmo,
        apply_ite SplitMetrics.epoch_drmsd,
        apply_ite SplitMetrics.epoch_ln_drmsd,
        apply_ite SplitMetrics.epoch_mse,
        apply_ite SplitMetrics.epoch_combined,
        apply_ite SplitMetrics.epoch_rmsd,
        apply_ite SplitMetrics.batch_history,
        apply_ite SplitMetrics.speed_history,
        apply_ite SplitMetrics.epoch_history_drmsd,
        apply_ite SplitMetrics.epoch_history_combined]

theorem applyUpdates_cons (mo : Mode) (c : UpdateCall) (cs : List UpdateCall)
    (m : Metrics) :
    applyUpdates mo (c :: cs) m
      = applyUpdates mo cs
          (update_metrics m mo c.drmsd c.ln_drmsd c.mse c.combined c.src_seq
            c.rmsd c.tracking_loss c.batch_level c.now) := rfl

theorem applyUpdates_epoch_sums (mo : Mode) (calls : List UpdateCall) :
    ∀ m : Metrics,
    ((applyUpdates mo calls m).get mo).epoch_drmsd
      = (m.get mo).epoch_drmsd + (calls.map (fun c => c.drmsd)).sum ∧
    ((applyUpdates mo calls m).get mo).epoch_ln_drmsd
      = (m.get mo).epoch_ln_drmsd + (calls.map (fun c => c.ln_drmsd)).sum ∧
    ((applyUpdates mo calls m).get mo).epoch_mse
      = (m.get mo).epoch_mse + (calls.map (fun c => c.mse)).sum ∧
    ((applyUpdates mo calls m).get mo).epoch_combined
      = (m.get mo).epoch_combined + (calls.map (fun c => c.combined)).sum ∧
    ((applyUpdates mo calls m).get mo).epoch_rmsd
      = ((m.get mo).epoch_rmsd).map
          (· + (calls.map (fun c => c.rmsd.getD 0)).sum) := by
  induction calls with
  | nil =>
      intro m
      have hmap : ∀ o : Option ℚ, o.map (· + (0 : ℚ)) = o := by
        intro o; cases o <;> simp
      simp [applyUpdates, hmap]
  | cons c cs ih =>
      intro m
      obtain ⟨h1, h2, h3, h4, h5⟩ :=
        ih (update_metrics m mo c.drmsd c.ln_drmsd c.mse c.combined c.src_seq
          c.rmsd c.tracking_loss c.batch_level c.now)
      rw [applyUpdates_cons]
      refine ⟨?_, ?_, ?_, ?_, ?_⟩
      · rw [h1, update_metrics_epoch_drmsd]; simp; ring
      · rw [h2, update_metrics_epoch_ln_drmsd]; simp; ring
      · rw [h3, update_metrics_epoch_mse]; simp; ring
      · rw [h4, update_metrics_epoch_combined]; simp; ring
      · rw [h5, update_metrics_epoch_rmsd, Option.map_map]
        rcases (m.get mo).epoch_rmsd with _ | v <;>
          simp [Function.comp, add_assoc]

/-- C2: for every sequence of update calls on a split after a reset, the
epoch running sums are the exact sums of the per-call values, and
finalizing the epoch with the batch count divides each of them into
the arithmetic mean (for rmsd, on every non-training split). -/
theorem epoch_sums_exact_and_finalize_mean (mo : Mode)
    (hmo : mo ≠ Mode.train) (calls : List UpdateCall) (m : Metrics)
    (t0 : ℚ) (n : ℚ) :
    ((applyUpdates mo calls (reset_metrics_for_epoch m mo t0)).get mo).epoch_drmsd
      = (calls.map (fun c => c.drmsd)).sum ∧
    ((applyUpdates mo calls (reset_metrics_for_epoch m mo t0)).get mo).epoch_ln_drmsd
      = (calls.map (fun c => c.ln_drmsd)).sum ∧
    ((applyUpdates mo calls (reset_metrics_for_epoch m mo t0)).get mo).epoch_mse
      = (calls.map (fun c => c.mse)).sum ∧
    ((applyUpdates mo calls (reset_metrics_for_epoch m mo t0)).get mo).epoch_combined
      = (calls.map (fun c => c.combined)).sum ∧
    ((applyUpdates mo calls (reset_metrics_for_epoch m mo t0)).get mo).epoch_rmsd
      = some ((calls.map (fun c => c.rmsd.getD 0)).sum) ∧
    ((update_metrics_end_of_epoch
        (applyUpdates mo calls (reset_metrics_for_epoch m mo t0)) mo n).get
          mo).epoch_drmsd
      = (calls.map (fun c => c.drmsd)).sum / n ∧
    ((update_metrics_end_of_epoch
        (applyUpdates mo calls (reset_metrics_for_epoch m mo t0)) mo n).get
          mo).epoch_ln_drmsd
      = (calls.map (fun c => c.ln_drmsd)).sum / n ∧
    ((update_metrics_end_of_epoch
        (applyUpdates mo calls (reset_metrics_for_epoch m mo t0)) mo n).get
          mo).epoch_mse
      = (calls.map (fun c => c.mse)).sum / n ∧
    ((update_metrics_end_of_epoch
        (applyUpdates mo calls (reset_metrics_for_epoch m mo t0)) mo n).get
          mo).epoch_combined
      = (calls.map (fun c => c.combined)).sum / n ∧
    ((update_metrics_end_of_epoch
        (applyUpdates mo calls (reset_metrics_for_epoch m mo t0)) mo n).get
          mo).epoch_rmsd
      = some ((calls.map (fun c => c.rmsd.getD 0)).sum / n) := by
  obtain ⟨r1, r2, r3, r4, r5, -, -, -, -, -⟩ := reset_metrics_get m mo t0
  obtain ⟨s1, s2, s3, s4, s5⟩ :=
    applyUpdates_epoch_sums mo calls (reset_metrics_for_epoch m mo t0)
  rw [r1] at s1; rw [r2] at s2; rw [r3] at s3; rw [r4] at s4
  rw [r5, if_neg hmo] at s5
  obtain ⟨f1, f2, f3, f4, f5, -, -, -, -, -⟩ :=
    finalize_get (applyUpdates mo calls (reset_metrics_for_epoch m mo t0)) mo n
  rw [if_neg hmo] at f5
  refine ⟨?_, ?_, ?_, ?_, ?_, ?_, ?_, ?_, ?_, ?_⟩
  · rw [s1]; ring
  · rw [s2]; ring
  · rw [s3]; ring
  · rw [s4]; ring
  · rw [s5]; simp
  · rw [f1, s1]; ring
  · rw [f2, s2]; ring
  · rw [f3, s3]; ring
  · rw [f4, s4]; ring
  · rw [f5, s5]; simp

theorem epoch_sums_exact_and_finalize_mean_witness :
    Mode.valid ≠ Mode.train ∧
    ((update_metrics_end_of_epoch
        (applyUpdates Mode.valid scenarioCalls
          (reset_metrics_for_epoch (init_metrics scenarioArgs) Mode.valid 0))
        Mode.valid 4).get Mode.valid).epoch_drmsd = 5 / 2 := by
  constructor
  · decide
  · have h := (epoch_sums_exact_and_finalize_mean Mode.valid (by decide)
      scenarioCalls (init_metrics scenarioArgs) 0 4).2.2.2.2.2.1
    rw [h]
    simp [scenarioCalls]
    norm_num

theorem update_loss_trackers_eq (args : Args) (e : ℤ) (m : Metrics) :
    update_loss_trackers args e m =
      if ltBest (compareLoss args m) m.best_valid_loss_so_far then
        Except.ok { m with
          best_valid_loss_so_far := some (compareLoss args m)
          epoch_last_improved := e
          loss_to_compare := some (compareLoss args m)
          losses_to_compare := some (compareHistory args m) }
      else if args.early_stopping ≠ 0 ∧
          e - m.epoch_last_improved > (args.early_stopping : ℤ) then
        Except.error ⟨⟩
      else
        Except.ok { m with
          loss_to_compare := some (compareLoss args m)
          losses_to_compare := some (compareHistory args m) } := rfl

theorem optLE_refl (o : Option ℚ) : optLE o o := by
  cases o <;> simp [optLE]

/-- C3: a successful early-stopping evaluation never increases
best_valid_loss_so_far, and it changes epoch_last_improved or
best_valid_loss_so_far only when the compared loss is strictly below
the best loss so far; in particular equality updates neither field. -/
theorem best_loss_monotone_and_strict_improvement (args : Args) (e : ℤ)
    (m m' : Metrics) (h : update_loss_trackers args e m = Except.ok m') :
    optLE m'.best_valid_loss_so_far m.best_valid_loss_so_far ∧
    (m'.epoch_last_improved ≠ m.epoch_last_improved →
      ltBest (compareLoss args m) m.best_valid_loss_so_far = true) ∧
    (m'.best_valid_loss_so_far ≠ m.best_valid_loss_so_far →
      ltBest (compareLoss args m) m.best_valid_loss_so_far = true) := by
  rw [update_loss_trackers_eq] at h
  by_cases hlt : ltBest (compareLoss args m) m.best_valid_loss_so_far = true
  · rw [if_pos hlt] at h
    injection h with h
    subst h
    refine ⟨?_, fun _ => hlt, fun _ => hlt⟩
    cases hb : m.best_valid_loss_so_far with
    | none => simp [optLE]
    | some b =>
        rw [hb] at hlt
        simp only [ltBest, decide_eq_true_eq] at hlt
        simpa [optLE] using le_of_lt hlt
  · rw [if_neg hlt] at h
    by_cases hc : args.early_stopping ≠ 0 ∧
        e - m.epoch_last_improved > (args.early_stopping : ℤ)
    · rw [if_pos hc] at h
      exact absurd h (by simp)
    · rw [if_neg hc] at h
      injection h with h
      subst h
      exact ⟨optLE_refl _, fun hne => absurd rfl hne, fun hne => absurd rfl hne⟩

theorem best_loss_monotone_and_strict_improvement_witness :
    optLE esWitnessOutput.best_valid_loss_so_far
      esWitnessInput.best_valid_loss_so_far :=
  (best_loss_monotone_and_strict_improvement scenarioArgs 1 esWitnessInput
    esWitnessOutput (by rfl)).1

/-- C7: after finalizing an epoch, the epoch-level rmsd is None for the
training split and the rmsd running sum divided by the batch count
for every other split. -/
theorem finalize_rmsd_none_for_train_mean_otherwise (m : Metrics)
    (mo : Mode) (n : ℚ) (s : ℚ) :
    (mo = Mode.train →
      ((update_metrics_end_of_epoch m mo n).get mo).epoch_rmsd = none) ∧
    (mo ≠ Mode.train → (m.get mo).epoch_rmsd = some s →
      ((update_metrics_end_of_epoch m mo n).get mo).epoch_rmsd
        = some (s / n)) := by
  obtain ⟨-, -, -, -, f5, -, -, -, -, -⟩ := finalize_get m mo n
  constructor
  · intro hmo
    rw [f5, if_pos hmo]
  · intro hmo hs
    rw [f5, if_neg hmo, hs]
    rfl

theorem finalize_rmsd_witness :
    ((update_metrics_end_of_epoch
        (reset_metrics_for_epoch (init_metrics scenarioArgs) Mode.valid 0)
        Mode.valid 1).get Mode.valid).epoch_rmsd = some (0 / 1) := by
  have hr : ((reset_metrics_for_epoch (init_metrics scenarioArgs)
      Mode.valid 0).get Mode.valid).epoch_rmsd = some 0 := by
    obtain ⟨-, -, -, -, r5, -, -, -, -, -⟩ :=
      reset_metrics_get (init_metrics scenarioArgs) Mode.valid 0
    rw [r5]
    decide
  exact (finalize_rmsd_none_for_train_mean_otherwise
    (reset_metrics_for_epoch (init_metrics scenarioArgs) Mode.valid 0)
    Mode.valid 1 0).2 (by decide) hr

/-- C9: a supplied rmsd equal to 0 modifies neither the batch-level rmsd
field nor the epoch-level rmsd running sum, and a supplied tracking
loss equal to 0 appends nothing to the batch loss history:
zero-valued optional metrics behave as if absent. -/
theorem zero_optional_metrics_treated_absent (m : Metrics) (mo : Mode)
    (d l ms c : ℚ) (s : List (List ℚ)) (r tl : Option ℚ) (bl : Bool)
    (now : ℚ) :
    ((update_metrics m mo d l ms c s (some 0) tl bl now).get mo).batch_rmsd
      = (m.get mo).batch_rmsd ∧
    ((update_metrics m mo d l ms c s (some 0) tl bl now).get mo).epoch_rmsd
      = (m.get mo).epoch_rmsd ∧
    ((update_metrics m mo d l ms c s r (some 0) bl now).get mo).batch_history
      = (m.get mo).batch_history := by
  have h0 : pyTruthy (some 0) = false := by decide
  refine ⟨?_, ?_, ?_⟩
  · exact update_metrics_batch_rmsd_not_truthy m mo d l ms c s (some 0) tl bl
      now h0
  · exact update_metrics_epoch_rmsd_not_truthy m mo d l ms c s (some 0) tl bl
      now h0
  · rw [update_metrics_batch_history, h0]
    simp

/-- C6 counterexample: reset_metrics_for_epoch replaces a non-empty
batch loss history with the empty list, so the history lists of the
metrics state are not all append-only under every operation. -/
theorem reset_removes_batch_history_element :
    (c6State.get Mode.valid).batch_history = [1] ∧
    ((reset_metrics_for_epoch c6State Mode.valid 2).get
        Mode.valid).batch_history = [] := by
  constructor
  · rw [c6State, update_metrics_batch_history]
    obtain ⟨-, -, -, -, -, r6, -, -, -, -⟩ :=
      reset_metrics_get (init_metrics scenarioArgs) Mode.valid 0
    rw [r6]
    decide
  · obtain ⟨-, -, -, -, -, r6, -, -, -, -⟩ := reset_metrics_get c6State Mode.valid 2
    exact r6

theorem update_loss_trackers_preserves_splits (args : Args) (e : ℤ)
    (m m' : Metrics) (mo : Mode)
    (h : update_loss_trackers args e m = Except.ok m') :
    m'.get mo = m.get mo ∧ m'.history_lr = m.history_lr := by
  rw [update_loss_trackers_eq] at h
  by_cases hlt : ltBest (compareLoss args m) m.best_valid_loss_so_far = true
  · rw [if_pos hlt] at h
    injection h with h
    subst h
    cases mo <;> exact ⟨rfl, rfl⟩
  · rw [if_neg hlt] at h
    by_cases hc : args.early_stopping ≠ 0 ∧
        e - m.epoch_last_improved > (args.early_stopping : ℤ)
    · rw [if_pos hc] at h
      exact absurd h (by simp)
    · rw [if_neg hc] at h
      injection h with h
      subst h
      cases mo <;> exact ⟨rfl, rfl⟩

/-- C6 (amended): the epoch-level history lists and the learning-rate
history are append-only under update, finalize, reset and the
early-stopping evaluation; within an epoch the batch-loss and speed
histories only grow under update and are untouched by finalize and
the evaluator, while reset_metrics_for_epoch clears those two
per-epoch lists. -/
theorem histories_append_only_amended (m : Metrics) (mo : Mode)
    (d l ms c : ℚ) (s : List (List ℚ)) (r tl : Option ℚ) (bl : Bool)
    (now n t0 : ℚ) (args : Args) (e : ℤ) (m' : Metrics) :
    ((update_metrics m mo d l ms c s r tl bl now).get mo).epoch_history_drmsd
      = (m.get mo).epoch_history_drmsd ∧
    ((update_metrics m mo d l ms c s r tl bl now).get mo).epoch_history_combined
      = (m.get mo).epoch_history_combined ∧
    (update_metrics m mo d l ms c s r tl bl now).history_lr = m.history_lr ∧
    (∃ t, ((update_metrics m mo d l ms c s r tl bl now).get mo).batch_history
      = (m.get mo).batch_history ++ t) ∧
    (∃ t, ((update_metrics m mo d l ms c s r tl bl now).get mo).speed_history
      = (m.get mo).speed_history ++ t) ∧
    (∃ x, ((update_metrics_end_of_epoch m mo n).get mo).epoch_history_drmsd
      = (m.get mo).epoch_history_drmsd ++ [x]) ∧
    (∃ x, ((update_metrics_end_of_epoch m mo n).get mo).epoch_history_combined
      = (m.get mo).epoch_history_combined ++ [x]) ∧
    ((update_metrics_end_of_epoch m mo n).get mo).batch_history
      = (m.get mo).batch_history ∧
    ((update_metrics_end_of_epoch m mo n).get mo).speed_history
      = (m.get mo).speed_history ∧
    (update_metrics_end_of_epoch m mo n).history_lr = m.history_lr ∧
    ((reset_metrics_for_epoch m mo t0).get mo).epoch_history_drmsd
      = (m.get mo).epoch_history_drmsd ∧
    ((reset_metrics_for_epoch m mo t0).get mo).epoch_history_combined
      = (m.get mo).epoch_history_combined ∧
    (reset_metrics_for_epoch m mo t0).history_lr = m.history_lr ∧
    (update_loss_trackers args e m = Except.ok m' →
      m'.get mo = m.get mo ∧ m'.history_lr = m.history_lr) := by
  obtain ⟨f1, f2, f3, f4, f5, f6, f7, f8, f9, f10⟩ := finalize_get m mo n
  obtain ⟨r1, r2, r3, r4, r5, r6, r7, r8, r9, r10⟩ := reset_metrics_get m mo t0
  refine ⟨update_metrics_epoch_history_drmsd m mo d l ms c s r tl bl now,
    update_metrics_epoch_history_combined m mo d l ms c s r tl bl now,
    update_metrics_history_lr m mo d l ms c s r tl bl now,
    ?_, ?_, ⟨_, f6⟩, ⟨_, f7⟩, f8, f9, f10, r8, r9, r10,
    fun h => update_loss_trackers_preserves_splits args e m m' mo h⟩
  · refine ⟨if pyTruthy tl then [tl.getD 0] else [], ?_⟩
    rw [update_metrics_batch_history]
    split <;> simp
  · obtain ⟨x, hx⟩ := update_metrics_speed_history_grows m mo d l ms c s r tl
      bl now
    exact ⟨[x], hx⟩

theorem histories_append_only_amended_witness :
    esWitnessOutput.get Mode.valid = esWitnessInput.get Mode.valid ∧
    esWitnessOutput.history_lr = esWitnessInput.history_lr :=
  (histories_append_only_amended esWitnessInput Mode.valid 0 0 0 0 [] none
    none true 0 1 0 scenarioArgs 1
    esWitnessOutput).2.2.2.2.2.2.2.2.2.2.2.2.2 (by rfl)

theorem setCompareLoss_compareLoss (args : Args) (l : ℚ) (m : Metrics) :
    compareLoss args (setCompareLoss args l m) = l := by
  unfold compareLoss setCompareLoss
  by_cases h1 : args.combined_loss <;> by_cases h2 : args.train_only <;>
    simp [h1, h2, Metrics.get_set_self]

theorem setCompareLoss_best (args : Args) (l : ℚ) (m : Metrics) :
    (setCompareLoss args l m).best_valid_loss_so_far
      = m.best_valid_loss_so_far := by
  unfold setCompareLoss
  split_ifs <;> rw [Metrics.set_best]

theorem setCompareLoss_last (args : Args) (l : ℚ) (m : Metrics) :
    (setCompareLoss args l m).epoch_last_improved
      = m.epoch_last_improved := by
  unfold setCompareLoss
  split_ifs <;> rw [Metrics.set_last_improved]

theorem es_step_no_improve (args : Args) (b : ℚ) (e0 j : ℤ) (l : ℚ)
    (m : Metrics) (hb : m.best_valid_loss_so_far = some b)
    (he : m.epoch_last_improved = e0) (hl : b ≤ l)
    (hj : ¬(args.early_stopping ≠ 0 ∧
      j - e0 > (args.early_stopping : ℤ))) :
    ∃ m', update_loss_trackers args j (setCompareLoss args l m)
        = Except.ok m' ∧
      m'.best_valid_loss_so_far = some b ∧
      m'.epoch_last_improved = e0 := by
  rw [update_loss_trackers_eq]
  have hbb : (setCompareLoss args l m).best_valid_loss_so_far = some b := by
    rw [setCompareLoss_best, hb]
  have hee : (setCompareLoss args l m).epoch_last_improved = e0 := by
    rw [setCompareLoss_last, he]
  have hlt : ltBest (compareLoss args (setCompareLoss args l m))
      (setCompareLoss args l m).best_valid_loss_so_far = false := by
    rw [setCompareLoss_compareLoss, hbb]
    simp [ltBest, not_lt]
    exact hl
  rw [if_neg (by simp [hlt]), hee, if_neg hj]
  exact ⟨_, rfl, hbb, rfl⟩

theorem es_step_stop (args : Args) (b : ℚ) (e0 j : ℤ) (l : ℚ)
    (m : Metrics) (hb : m.best_valid_loss_so_far = some b)
    (he : m.epoch_last_improved = e0) (hl : b ≤ l)
    (hP : args.early_stopping ≠ 0)
    (hj : j - e0 > (args.early_stopping : ℤ)) :
    update_loss_trackers args j (setCompareLoss args l m)
      = Except.error ⟨⟩ := by
  rw [update_loss_trackers_eq]
  have hbb : (setCompareLoss args l m).best_valid_loss_so_far = some b := by
    rw [setCompareLoss_best, hb]
  have hee : (setCompareLoss args l m).epoch_last_improved = e0 := by
    rw [setCompareLoss_last, he]
  have hlt : ltBest (compareLoss args (setCompareLoss args l m))
      (setCompareLoss args l m).best_valid_loss_so_far = false := by
    rw [setCompareLoss_compareLoss, hbb]
    simp [ltBest, not_lt]
    exact hl
  rw [if_neg (by simp [hlt]), hee, if_pos ⟨hP, hj⟩]

theorem runES_no_stop (args : Args) (b : ℚ) (e0 : ℤ) :
    ∀ (losses : List ℚ) (j : ℤ) (m : Metrics),
      m.best_valid_loss_so_far = some b → m.epoch_last_improved = e0 →
      (∀ l ∈ losses, b ≤ l) → 1 ≤ j - e0 →
      j - e0 + losses.length - 1 ≤ (args.early_stopping : ℤ) →
      ∃ m', runES args j losses m = Except.ok m' ∧
        m'.best_valid_loss_so_far = some b ∧
        m'.epoch_last_improved = e0 := by
  intro losses
  induction losses with
  | nil =>
      intro j m hb he _ _ _
      exact ⟨m, rfl, hb, he⟩
  | cons l ls ih =>
      intro j m hb he hge h1 h2
      have hnc : ¬(args.early_stopping ≠ 0 ∧
          j - e0 > (args.early_stopping : ℤ)) := by
        rintro ⟨-, hgt⟩
        have : (l :: ls).length = ls.length + 1 := rfl
        rw [this] at h2
        push_cast at h2
        omega
      obtain ⟨m1, hstep, hb1, he1⟩ :=
        es_step_no_improve args b e0 j l m hb he (hge l (by simp)) hnc
      obtain ⟨m', hrun, hb', he'⟩ := ih (j + 1) m1 hb1 he1
        (fun x hx => hge x (by simp [hx]))
        (by omega)
        (by
          have : (l :: ls).length = ls.length + 1 := rfl
          rw [this] at h2
          push_cast at h2 ⊢
          omega)
      refine ⟨m', ?_, hb', he'⟩
      simp only [runES, hstep]
      exact hrun

theorem runES_append (args : Args) :
    ∀ (xs ys : List ℚ) (j : ℤ) (m : Metrics),
      runES args j (xs ++ ys) m =
        match runES args j xs m with
        | Except.ok m' => runES args (j + xs.length) ys m'
        | Except.error u => Except.error u := by
  intro xs
  induction xs with
  | nil =>
      intro ys j m
      simp [runES]
  | cons x xs ih =>
      intro ys j m
      show runES args j (x :: (xs ++ ys)) m = _
      simp only [runES]
      cases hstep : update_loss_trackers args j (setCompareLoss args x m) with
      | error u => rfl
      | ok m1 =>
          have harith : j + ((x :: xs).length : ℤ)
              = j + 1 + (xs.length : ℤ) := by
            have : (x :: xs).length = xs.length + 1 := rfl
            rw [this]
            push_cast
            ring
          show runES args (j + 1) (xs ++ ys) m1 =
            match runES args (j + 1) xs m1 with
            | Except.ok m' => runES args (j + ((x :: xs).length : ℤ)) ys m'
            | Except.error u => Except.error u
          rw [harith]
          exact ih ys (j + 1) m1

/-- C1: with patience P set, best loss b, and last improvement at epoch
e0, feeding P+1 consecutive non-improving epoch-mean losses makes
the evaluator raise EarlyStoppingCondition exactly on the (P+1)-th
of them and on no earlier one; concretely, combined losses
[5,4,4,4,4] with patience 2 improve at epoch 2, raise at epoch 5,
and raise at no earlier epoch. -/
theorem early_stopping_fires_on_patience_plus_one (args : Args) (P : ℕ)
    (hP : args.early_stopping = P) (hP0 : P ≠ 0) (b : ℚ) (e0 : ℤ)
    (m : Metrics) (hb : m.best_valid_loss_so_far = some b)
    (he : m.epoch_last_improved = e0) (losses : List ℚ)
    (hlen : losses.length = P + 1) (hge : ∀ l ∈ losses, b ≤ l) :
    runES args (e0 + 1) losses m = Except.error ⟨⟩ ∧
    (∀ k, k ≤ P → esOk (runES args (e0 + 1) (losses.take k) m) = true) ∧
    esOk (runES scenarioArgs 1 [5, 4, 4, 4, 4] (init_metrics scenarioArgs))
      = false ∧
    esLastImproved (runES scenarioArgs 1 [5, 4] (init_metrics scenarioArgs))
      = some 2 ∧
    esOk (runES scenarioArgs 1 [5, 4, 4, 4] (init_metrics scenarioArgs))
      = true := by
  have hlenT : (losses.take P).length = P := by
    rw [List.length_take]
    omega
  have hlenD : (losses.drop P).length = 1 := by
    rw [List.length_drop]
    omega
  obtain ⟨l1, hl1⟩ := List.length_eq_one.mp hlenD
  have hl1mem : l1 ∈ losses := by
    have : l1 ∈ losses.drop P := by
      rw [hl1]
      exact List.mem_singleton_self l1
    exact List.mem_of_mem_drop this
  obtain ⟨m1, hrun1, hb1, he1⟩ := runES_no_stop args b e0 (losses.take P)
    (e0 + 1) m hb he (fun l hl => hge l (List.mem_of_mem_take hl))
    (by omega)
    (by rw [hlenT, hP]; omega)
  refine ⟨?_, ?_, by decide, by decide, by decide⟩
  · have h2 : runES args (e0 + 1) losses m
        = runES args (e0 + 1 + ((losses.take P).length : ℤ))
            (losses.drop P) m1 := by
      conv_lhs => rw [← List.take_append_drop P losses]
      rw [runES_append, hrun1]
    rw [h2, hlenT, hl1]
    simp only [runES]
    have hstop := es_step_stop args b e0 (e0 + 1 + (P : ℤ)) l1 m1 hb1 he1
      (hge l1 hl1mem) (by rw [hP]; exact_mod_cast hP0) (by rw [hP]; omega)
    rw [hstop]
  · intro k hk
    obtain ⟨mk, hrunk, -, -⟩ := runES_no_stop args b e0 (losses.take k)
      (e0 + 1) m hb he (fun l hl => hge l (List.mem_of_mem_take hl))
      (by omega)
      (by
        rw [List.length_take, hlen, hP]
        push_cast
        omega)
    rw [hrunk]
    rfl

theorem early_stopping_fires_witness :
    runES scenarioArgs (2 + 1) [4, 4, 4] c1WitnessState
      = Except.error ⟨⟩ :=
  (early_stopping_fires_on_patience_plus_one scenarioArgs 2 rfl
    (by decide) 4 2 c1WitnessState rfl rfl [4, 4, 4] (by decide)
    (by decide)).1

theorem log_batch_isSome (metrics : Metrics) (st : ℚ) (mo : Mode)
    (e : Bool) (t : Option ℚ) (now : ℚ) (h : metrics.history_lr ≠ []) :
    ∃ row, log_batch metrics st mo e t now = some row := by
  obtain ⟨lr, hlr⟩ : ∃ lr, metrics.history_lr.getLast? = some lr := by
    cases hl : metrics.history_lr.getLast? with
    | none => exact absurd (List.getLast?_eq_none_iff.mp hl) h
    | some lr => exact ⟨lr, rfl⟩
  cases e <;>
    · simp only [log_batch]
      rw [hlr]
      exact ⟨_, rfl⟩

/-- C10: every row log_batch writes carries the constant string "epoch"
in the granularity column (index 7), for batch-level rows as well as
end-of-epoch rows, and the value of that column does not depend on
the end_of_epoch argument. -/
theorem granularity_always_epoch (metrics : Metrics) (st : ℚ) (mo : Mode)
    (e : Bool) (t : Option ℚ) (now : ℚ) (row : List LogValue)
    (h : log_batch metrics st mo e t now = some row) :
    row.get? 7 = some (LogValue.str "epoch") ∧
    (log_batch metrics st mo true t now).map (fun r => r.get? 7)
      = (log_batch metrics st mo false t now).map (fun r => r.get? 7) := by
  constructor
  · simp only [log_batch] at h
    cases hlr : metrics.history_lr.getLast? with
    | none =>
        rw [hlr] at h
        exact absurd h (by simp)
    | some lr =>
        rw [hlr] at h
        cases e <;>
          · injection h with h
            subst h
            rfl
  · cases hlr : metrics.history_lr.getLast? with
    | none => simp only [log_batch]; rw [hlr]
    | some lr =>
        simp only [log_batch]
        rw [hlr]
        rfl

theorem granularity_always_epoch_witness :
    (log_batch (init_metrics scenarioArgs) 0 Mode.valid true none 1).map
        (fun r => r.get? 7)
      = (log_batch (init_metrics scenarioArgs) 0 Mode.valid false none 1).map
        (fun r => r.get? 7) :=
  (granularity_always_epoch (init_metrics scenarioArgs) 0 Mode.valid false
    none 1 _ rfl).2

/-- C5: when the scalar loss driving the optimizer step is NaN, batch
logging exits the process with status 1 after its diagnostic print;
for a non-NaN loss it never exits and completes normally (assuming
the learning-rate history is non-empty, as init_metrics guarantees). -/
theorem nan_loss_exits_nonzero (metrics : Metrics) (d l ms c : ℚ)
    (src : List (List ℚ)) (loss : TorchScalar) (opt : Optimizer)
    (args : Args) (st now : ℚ) (h : metrics.history_lr ≠ []) :
    (loss.isNan = true →
      do_train_batch_logging metrics d l ms c src loss opt args st now
        = TrainLogOutcome.exited 1) ∧
    (loss.isNan = false →
      ∃ m' row,
        do_train_batch_logging metrics d l ms c src loss opt args st now
          = TrainLogOutcome.finished m' row) := by
  have hne : (if args.lr_scheduling then
      { (update_metrics metrics Mode.train d l ms c src none (some loss.val)
          true now) with
        history_lr := (update_metrics metrics Mode.train d l ms c src none
          (some loss.val) true now).history_lr ++ [opt.cur_lr] }
    else update_metrics metrics Mode.train d l ms c src none (some loss.val)
      true now).history_lr ≠ [] := by
    split
    · simp
    · rw [update_metrics_history_lr]
      exact h
  obtain ⟨row, hrow⟩ := log_batch_isSome _ st Mode.train false none now hne
  constructor
  · intro hnan
    simp only [do_train_batch_logging]
    rw [hrow, hnan]
    rfl
  · intro hnan
    simp only [do_train_batch_logging]
    rw [hrow, hnan]
    exact ⟨_, row, rfl⟩

theorem nan_loss_exits_nonzero_witness :
    do_train_batch_logging (init_metrics scenarioArgs) 0 0 0 0 []
        ⟨0, true⟩ ⟨0⟩ scenarioArgs 0 1 = TrainLogOutcome.exited 1 :=
  (nan_loss_exits_nonzero (init_metrics scenarioArgs) 0 0 0 0 []
    ⟨0, true⟩ ⟨0⟩ scenarioArgs 0 1 (by decide)).1 rfl

/-- C4 evidence: prepare_log_header omits the combined column when
combined-loss mode is disabled (9 column names instead of 10), yet
log_batch always writes a 10-cell row whose fifth cell is the
combined metric, so with combined-loss mode disabled the written
rows do not match the header. -/
theorem combined_column_always_written :
    (prepare_log_header { scenarioArgs with
        combined_loss := false }).toList.count ',' + 1 = 9 ∧
    (prepare_log_header scenarioArgs).toList.count ',' + 1 = 10 ∧
    (log_batch (init_metrics scenarioArgs) 0 Mode.valid false none 1).map
        (fun r => r.length) = some 10 ∧
    (log_batch (init_metrics scenarioArgs) 0 Mode.valid false none 1).map
        (fun r => r.get? 4)
      = some (some (LogValue.num
          ((init_metrics scenarioArgs).valid.batch_combined))) := by
  refine ⟨by decide, by decide, rfl, rfl⟩

theorem mem_pyReplaceAux (pat rep : List Char) (c : Char) :
    ∀ (fuel : ℕ) (l : List Char),
      c ∈ pyReplaceAux pat rep fuel l → c ∈ rep ∨ c ∈ l := by
  intro fuel
  induction fuel with
  | zero =>
      intro l h
      cases l with
      | nil => simp [pyReplaceAux] at h
      | cons x rest => exact Or.inr h
  | succ fuel ih =>
      intro l h
      cases l with
      | nil => simp [pyReplaceAux] at h
      | cons x rest =>
          rw [pyReplaceAux] at h
          split at h
          · rcases List.mem_append.mp h with hrep | htail
            · exact Or.inl hrep
            · rcases ih _ htail with h1 | h2
              · exact Or.inl h1
              · exact Or.inr (List.mem_cons_of_mem x (List.mem_of_mem_drop h2))
          · rcases List.mem_cons.mp h with rfl | htail
            · exact Or.inr (List.mem_cons_self c rest)
            · rcases ih rest htail with h1 | h2
              · exact Or.inl h1
              · exact Or.inr (List.mem_cons_of_mem x h2)

theorem not_mem_pyReplaceAux_single (a : Char) (ha : a ≠ '_') :
    ∀ (fuel : ℕ) (l : List Char), l.length ≤ fuel →
      a ∉ pyReplaceAux [a] ['_'] fuel l := by
  intro fuel
  induction fuel with
  | zero =>
      intro l hl
      have : l = [] := List.length_eq_zero.mp (Nat.le_zero.mp hl)
      subst this
      simp [pyReplaceAux]
  | succ fuel ih =>
      intro l hl
      cases l with
      | nil => simp [pyReplaceAux]
      | cons x rest =>
          rw [pyReplaceAux]
          split
          · rename_i hpre
            intro hmem
            rcases List.mem_append.mp hmem with h1 | h2
            · rcases List.mem_singleton.mp h1 with rfl
              exact ha rfl
            · have hlen : (rest.drop ([a].length - 1)).length ≤ fuel := by
                simp at hl ⊢
                omega
              exact ih _ hlen h2
          · rename_i hpre
            intro hmem
            rcases List.mem_cons.mp hmem with rfl | h2
            · apply hpre
              refine ⟨by simp, ?_⟩
              simp [List.isPrefixOf]
            · exact ih rest (by simp at hl ⊢; omega) h2

theorem not_mem_pyReplace_single (a : Char) (ha : a ≠ '_')
    (l : List Char) : a ∉ pyReplace [a] ['_'] l :=
  not_mem_pyReplaceAux_single a ha l.length l (Nat.le_refl _)

theorem foldl_replace_preserves (a : Char) (ha : a ≠ '_') :
    ∀ (cs : List Char) (l : List Char), a ∉ l →
      a ∉ cs.foldl (fun t rc => pyReplace [rc] ['_'] t) l := by
  intro cs
  induction cs with
  | nil =>
      intro l hl
      simpa using hl
  | cons b bs ih =>
      intro l hl
      simp only [List.foldl_cons]
      apply ih
      intro hmem
      rcases mem_pyReplaceAux [b] ['_'] a _ _ hmem with h1 | h2
      · exact ha (List.mem_singleton.mp h1)
      · exact hl h2

theorem foldl_replace_removes (a : Char) (ha : a ≠ '_') :
    ∀ (cs : List Char) (l : List Char), a ∈ cs →
      a ∉ cs.foldl (fun t rc => pyReplace [rc] ['_'] t) l := by
  intro cs
  induction cs with
  | nil => simp
  | cons b bs ih =>
      intro l hmem
      simp only [List.foldl_cons]
      rcases List.mem_cons.mp hmem with rfl | hbs
      · exact foldl_replace_preserves a ha bs _ (not_mem_pyReplace_single a ha l)
      · exact ih _ hbs

theorem char_toNat_ofNat_valid (n : ℕ) (h : n.isValidChar) :
    (Char.ofNat n).toNat = n := by
  rw [Char.ofNat, dif_pos h]
  simp [Char.ofNatAux, Char.toNat, UInt32.toNat, BitVec.toNat_ofNatLt]

theorem toLower_toNat (c : Char) :
    (Char.toLower c).toNat
      = if c.toNat ≥ 65 ∧ c.toNat ≤ 90 then c.toNat + 32
        else c.toNat := by
  unfold Char.toLower
  split
  · rename_i h
    rw [if_pos h]
    exact char_toNat_ofNat_valid _ (Or.inl (by omega))
  · rename_i h
    rw [if_neg h]

theorem toLower_not_upper (c : Char) :
    ¬((Char.toLower c).toNat ≥ 65 ∧ (Char.toLower c).toNat ≤ 90) := by
  rw [toLower_toNat]
  split <;> rename_i h <;> omega

theorem toLower_eq_self (c : Char) (hc : ¬(c.toNat ≥ 65 ∧ c.toNat ≤ 90)) :
    Char.toLower c = c := by
  unfold Char.toLower
  rw [if_neg hc]

theorem toLower_not_bad (c : Char) (h : c ∉ replace_chars) :
    Char.toLower c ∉ replace_chars := by
  intro hmem
  have h93 : ∀ x ∈ replace_chars, x.toNat ≤ 93 := by decide
  have hle := h93 _ hmem
  by_cases hc : c.toNat ≥ 65 ∧ c.toNat ≤ 90
  · have heq : (Char.toLower c).toNat = c.toNat + 32 := by
      rw [toLower_toNat, if_pos hc]
    omega
  · rw [toLower_eq_self c hc] at hmem
    exact h hmem

/-- C8: title_to_fn is a pure function on strings whose output never
contains any character of replace_chars (space, comma, equals sign,
brackets, parentheses, period, dollar sign: each occurrence is
replaced by an underscore) and never contains an upper-case letter;
and a title with an embedded time-range annotation of the form
", t = [N, )" maps to the expected lowercase filesystem-safe name. -/
theorem title_to_fn_sanitizes :
    (∀ (t : List Char) (c : Char), c ∈ title_to_fn t →
      c ∉ replace_chars ∧ ¬(c.toNat ≥ 65 ∧ c.toNat ≤ 90)) ∧
    title_to_fn "DRMSD Loss, t = [100, )".toList
      = "drmsd_loss_t_100_".toList := by
  constructor
  · intro t c hc
    simp only [title_to_fn] at hc
    obtain ⟨c0, hc0, rfl⟩ := List.mem_map.mp hc
    have hnu : c0 ∉ replace_chars := by
      intro habs
      have hne : c0 ≠ '_' := by
        intro h
        subst h
        exact absurd habs (by decide)
      exact foldl_replace_removes c0 hne replace_chars _ habs hc0
    exact ⟨toLower_not_bad c0 hnu, toLower_not_upper c0⟩
  · decide

theorem title_to_fn_sanitizes_witness :
    'a' ∈ title_to_fn "A".toList ∧
    ('a' ∉ replace_chars ∧ ¬('a'.toNat ≥ 65 ∧ 'a'.toNat ≤ 90)) :=
  ⟨by decide, title_to_fn_sanitizes.1 "A".toList 'a' (by decide)⟩
